import Mathlib

/-!
Shallow embedding of the novanector account/auth backend:
the mongoose `Auth` model (schema validation, setters, pre-save hashing,
`toJSON`), the multer upload configuration (`fileFilter`, size limit,
filename generation, `generateImageUrl`, `handleMulterError`) and the
controller operations of `authController.js` (`createAuth`, `loginAuth`,
`updateUserProfile`, `updateProfilePicture`, `getSingleUser`,
`getAllUsers`, `deleteUser`).

Strings are modelled over `List Char`; JavaScript's ASCII-relevant string
operations (`toLowerCase`, `trim`, `String.prototype.length`,
`path.extname`) are re-implemented structurally so that every definition
is executable and kernel-reducible.  The regular expressions of the source
are fixed patterns and are translated into equivalent decidable predicates.
-/

namespace Novanector

/-- ASCII lower-casing of one character, as JavaScript `toLowerCase` acts on
the ASCII range (the inputs of this code base are ASCII). -/
def lowerChar (c : Char) : Char :=
  if 'A' ≤ c ∧ c ≤ 'Z' then Char.ofNat (c.toNat + 32) else c

/-- JavaScript `String.prototype.toLowerCase` (ASCII fragment). -/
def lowerStr (s : String) : String := String.mk (s.data.map lowerChar)

/-- Whitespace class of the JavaScript regex `\s` (ASCII fragment). -/
def isWsChar (c : Char) : Bool :=
  c == ' ' || c == '\t' || c == '\n' || c == '\r' || c == '\x0b' || c == '\x0c'

/-- JavaScript `String.prototype.trim` on the character list. -/
def trimCL (l : List Char) : List Char :=
  ((l.dropWhile isWsChar).reverse.dropWhile isWsChar).reverse

/-- JavaScript `String.prototype.trim`. -/
def trimStr (s : String) : String := String.mk (trimCL s.data)

/-- JavaScript `String.prototype.length` (code-unit count; ASCII inputs). -/
def strLen (s : String) : Nat := s.data.length

/-- Whether `p` is an initial segment of `l`. -/
def startsWithCL : List Char → List Char → Bool
  | [], _ => true
  | _ :: _, [] => false
  | a :: as, b :: bs => a == b && startsWithCL as bs

/-- Whether `suf` is a final segment of `l`. -/
def endsWithCL (suf l : List Char) : Bool := startsWithCL suf.reverse l.reverse

/-- Whether `need` occurs as a contiguous substring of the second list
(JavaScript unanchored regex / `includes` matching). -/
def hasSubCL (need : List Char) : List Char → Bool
  | [] => need.isEmpty
  | c :: t => startsWithCL need (c :: t) || hasSubCL need t

/-- Case-insensitive substring containment.  This is the SPEC's
description of the search filter ("case-insensitive substring match on
username OR email"); the code's actual filter is `mongoRegexFindI` below,
which applies the raw search string as a regular-expression pattern.  The
two agree exactly on metacharacter-free search strings (proved for the
amended C6) and diverge otherwise (the C6 counterexample). -/
def ciContains (hay need : String) : Bool :=
  hasSubCL (lowerStr need).data (lowerStr hay).data

/-- One token of a parsed search pattern: the dot wildcard or a literal
character. -/
inductive PatTok where
  | wildcard
  | lit (c : Char)
deriving DecidableEq, Repr

/-- The regex metacharacters of the PCRE patterns MongoDB evaluates. -/
def regexMeta : List Char :=
  ['\\', '^', '$', '.', '|', '?', '*', '+', '(', ')', '[', ']', '\x7b', '\x7d']

/-- Parse a search pattern into tokens.  Modelled fragment: literal
characters and the dot wildcard.  A pattern holding any other
metacharacter (escapes, anchors, quantifiers, alternation, grouping,
classes, bounded repetition) is outside the modelled fragment and parses
to `none`; no theorem engages such patterns. -/
def parseDotPattern : List Char → Option (List PatTok)
  | [] => some []
  | c :: t =>
    if c == '.' then (parseDotPattern t).map (fun ts => PatTok.wildcard :: ts)
    else if regexMeta.contains c then none
    else (parseDotPattern t).map (fun ts => PatTok.lit c :: ts)

/-- Whether one pattern token matches one subject character.  The dot
wildcard matches any character other than a newline (PCRE without the s
flag); a literal matches under the case-insensitive i flag, modelled as
ASCII folding at the comparison. -/
def tokMatches (t : PatTok) (c : Char) : Bool :=
  match t with
  | PatTok.wildcard => c != '\n'
  | PatTok.lit a => lowerChar a == lowerChar c

/-- Whether the token list matches a prefix of the subject of exactly its
own length. -/
def toksMatchHere : List PatTok → List Char → Bool
  | [], _ => true
  | _ :: _, [] => false
  | t :: ts, c :: cs => tokMatches t c && toksMatchHere ts cs

/-- Unanchored search: whether the token list matches at some position of
the subject. -/
def toksSearch (ts : List PatTok) : List Char → Bool
  | [] => toksMatchHere ts []
  | c :: rest => toksMatchHere ts (c :: rest) || toksSearch ts rest

/-- The filter `\x7b $regex: search, $options: "i" \x7d` of `getAllUsers`:
the raw user-supplied search string is evaluated as a case-insensitive
regular-expression pattern against the field, matched unanchored.
Patterns outside the modelled fragment parse to `none` and are treated as
matching nothing; every theorem about the search stays inside the
fragment. -/
def mongoRegexFindI (pattern subject : String) : Bool :=
  match parseDotPattern pattern.data with
  | some ts => toksSearch ts subject.data
  | none => false

/-- Split a character list on a separator character (every occurrence),
like JavaScript `String.prototype.split`. -/
def splitOnCharCL (sep : Char) : List Char → List (List Char)
  | [] => [[]]
  | c :: t =>
    let r := splitOnCharCL sep t
    if c == sep then [] :: r
    else
      match r with
      | [] => [[c]]
      | h :: t2 => (c :: h) :: t2

/-- Character class of the email regexes: anything but whitespace and @. -/
def emailChunkChar (c : Char) : Bool := !(isWsChar c) && c != '@'

/-- Whether the list holds a dot that is not its last element
(so the dot has at least one character after it inside the list). -/
def hasDotNotLast : List Char → Bool
  | [] => false
  | [_] => false
  | c :: t => c == '.' || hasDotNotLast t

/-- The email regex of both the controller and the schema.  A string
matches it exactly when it splits as one nonempty
whitespace-and-@-free chunk, an @, and a domain part that is
whitespace-and-@-free and holds an interior dot. -/
def emailRegexOk (s : String) : Bool :=
  match splitOnCharCL '@' s.data with
  | [a, b] =>
    !a.isEmpty && a.all emailChunkChar && b.all emailChunkChar &&
      (match b with
       | [] => false
       | _ :: t => hasDotNotLast t)
  | _ => false

/-- The profilePicture validator regex of the schema:
case-sensitive, with png, jpg, jpeg, gif and webp as the only admitted
extensions (bmp and tiff are absent from this pattern).  The dot of the
regex excludes line terminators. -/
def schemaImageUrlOk (s : String) : Bool :=
  let l := s.data
  (startsWithCL "http://".data l || startsWithCL "https://".data l) &&
    ([".png", ".jpg", ".jpeg", ".gif", ".webp"].any
      (fun e => endsWithCL e.data l)) &&
    l.all (fun c => c != '\n' && c != '\r')

/-- The `isValidImageUrl` helper of the multer configuration: the same
shape of pattern but case-insensitive and with bmp and tiff admitted. -/
def isValidImageUrl (s : String) : Bool :=
  let l := (lowerStr s).data
  (startsWithCL "http://".data l || startsWithCL "https://".data l) &&
    ([".png", ".jpg", ".jpeg", ".gif", ".webp", ".bmp", ".tiff"].any
      (fun e => endsWithCL e.data l)) &&
    l.all (fun c => c != '\n' && c != '\r')

/-- Node `path.extname` restricted to plain base names: the suffix from the
last dot, empty when there is no dot or the only dot is the leading
character. -/
def extnameCL (l : List Char) : List Char :=
  let r := l.reverse
  let after := r.takeWhile (fun c => c != '.')
  if after.length < r.length then
    if after.length + 1 < l.length then '.' :: after.reverse else []
  else []

/-- Node `path.extname` on strings. -/
def extname (s : String) : String := String.mk (extnameCL s.data)

/-! ## Data model: the `Auth` mongoose document -/

/-- One persisted user record of the Auth collection.  `password` holds the
bcrypt digest (the pre-save hook hashes before the record is stored);
`createdAt` is the creation timestamp used by the newest-first sort;
document ids are modelled as naturals. -/
structure User where
  id : Nat
  username : String
  email : String
  password : String
  profilePicture : String
  role : String
  createdAt : Nat
deriving DecidableEq, Repr

/-- bcrypt with the fixed work factor 12, modelled as an injective tagging
function: the library call is external to the repository, and no claim
depends on more than determinism of verification. -/
def bcryptHash (plaintext : String) : String := "bcrypt12$" ++ plaintext

/-- The `comparePassword` instance method: bcrypt verification of a
candidate against the stored digest. -/
def comparePassword (candidate stored : String) : Bool :=
  bcryptHash candidate == stored

/-- The schema default for `profilePicture`. -/
def defaultProfilePicture : String :=
  "https://res.cloudinary.com/dz1qj3x8h/image/upload/v1735681234/novanector/default-profile-picture.png"

/-- The `role` enumeration of the schema. -/
def roleEnum : List String := ["admin", "instructor", "student"]

/-- `toObject`: the serialized field list of a document (the mongo key
`_id` plus the schema paths; numeric values rendered as strings). -/
def toObject (u : User) : List (String × String) :=
  [("_id", toString u.id),
   ("username", u.username),
   ("email", u.email),
   ("password", u.password),
   ("profilePicture", u.profilePicture),
   ("role", u.role),
   ("createdAt", toString u.createdAt)]

/-- The overridden `toJSON` instance method: `toObject` with the
`password` key deleted. -/
def toJSON (u : User) : List (String × String) :=
  (toObject u).filter (fun kv => !(kv.1 == "password"))

/-- The query-level projection of `getAllUsers`, from
`.select("-password")`: every field except `password`. -/
def selectNoPassword (u : User) : List (String × String) :=
  (toObject u).filter (fun kv => !(kv.1 == "password"))

/-- Mongoose validation of a document at save time, after the setters have
run: required/minlength/maxlength on `username`, required plus the email
regex on `email`, required/minlength 9 on the (still plaintext) `password`,
the image-URL regex on `profilePicture`, and the enum on `role`.  Returns
the list of validation error messages, empty exactly when the document is
valid. -/
def validateUser (u : User) : List String :=
  (if u.username == "" then ["Path username is required."] else []) ++
  (if u.username != "" && decide (strLen u.username < 3) then
    ["Path username is shorter than the minimum allowed length (3)."] else []) ++
  (if decide (20 < strLen u.username) then
    ["Path username is longer than the maximum allowed length (20)."] else []) ++
  (if u.email == "" then ["Path email is required."] else []) ++
  (if u.email != "" && !(emailRegexOk u.email) then
    [u.email ++ " is not a valid email!"] else []) ++
  (if u.password == "" then ["Path password is required."] else []) ++
  (if u.password != "" && decide (strLen u.password < 9) then
    ["Path password is shorter than the minimum allowed length (9)."] else []) ++
  (if !(schemaImageUrlOk u.profilePicture) then
    [u.profilePicture ++ " is not a valid image URL!"] else []) ++
  (if !(roleEnum.contains u.role) then
    [u.role ++ " is not a valid enum value for path role."] else [])

/-! ## Token issuer (`jsonwebtoken`) -/

/-- The claims object passed to `jwt.sign` at login. -/
structure TokenClaims where
  userId : Nat
  email : String
  username : String
  role : String
deriving DecidableEq, Repr

/-- A signed token: its claims, issued-at and expiry timestamps (seconds),
and the secret it was signed with (standing for the signature). -/
structure Token where
  claims : TokenClaims
  iat : Nat
  exp : Nat
  signedWith : String
deriving DecidableEq, Repr

/-- `jwt.sign(claims, secret, expiresIn)`: expiry is issuance time plus
the validity window in seconds. -/
def jwtSign (c : TokenClaims) (secret : String) (now validitySecs : Nat) : Token :=
  { claims := c, iat := now, exp := now + validitySecs, signedWith := secret }

/-! ## Response envelope -/

/-- The pagination metadata object of `getAllUsers`. -/
structure Pagina where
  currentPage : Nat
  totalPages : Nat
  totalUsers : Nat
  hasNextPage : Bool
  hasPrevPage : Bool
deriving DecidableEq, Repr

/-- The JSON envelope every controller answers with: HTTP status, the
success flag and message, and the optional payload fields. -/
structure Response where
  status : Nat
  success : Bool
  message : String
  user : Option (List (String × String)) := none
  users : List (List (String × String)) := []
  pagina : Option Pagina := none
  token : Option Token := none
  errorCode : Option String := none
  errors : List String := []
deriving DecidableEq, Repr

/-! ## Upload handler (`multer.js`) -/

/-- A file arriving in the multipart request, before multer accepts it. -/
structure IncomingFile where
  originalname : String
  mimetype : String
  size : Nat
deriving DecidableEq, Repr

/-- A file multer has stored: the generated name on disk. -/
structure StoredFile where
  filename : String
deriving DecidableEq, Repr

/-- The MIME allow-list of `fileFilter`. -/
def allowedMimeTypes : List String :=
  ["image/jpeg", "image/jpg", "image/png", "image/gif",
   "image/webp", "image/bmp", "image/tiff"]

/-- The extension allow-list of `fileFilter`. -/
def allowedExtensions : List String :=
  [".jpg", ".jpeg", ".png", ".gif", ".webp", ".bmp", ".tiff"]

/-- `fileFilter`: the MIME type must be on the allow-list and the
lower-cased extension of the original name must be on the allow-list. -/
def fileFilter (mimetype originalname : String) : Bool :=
  allowedMimeTypes.contains mimetype &&
    allowedExtensions.contains (lowerStr (extname originalname))

/-- The 5 MB `fileSize` limit of the multer configuration. -/
def fileSizeLimit : Nat := 5 * 1024 * 1024

/-- The rejection message of `fileFilter`. -/
def invalidTypeMsg : String :=
  "Invalid file type. Only JPEG, PNG, GIF, WebP, BMP, and TIFF images are allowed."

/-- The ways a multer upload fails: the size/count/field limits raise
MulterError codes, a `fileFilter` rejection raises a plain Error whose
message reaches the client. -/
inductive UploadFail where
  | limitFileSize
  | limitFileCount
  | limitUnexpectedFile
  | custom (msg : String)
deriving DecidableEq, Repr

/-- The storage `filename` callback: the sanitized base name (alphanumeric
kept, everything else replaced by an underscore, truncated to 20
characters), a dash, the timestamp, a dash, the random hex string, and the
lower-cased original extension. -/
def sanitizeChar (c : Char) : Char :=
  if ('a' ≤ c ∧ c ≤ 'z') ∨ ('A' ≤ c ∧ c ≤ 'Z') ∨ ('0' ≤ c ∧ c ≤ '9') then c
  else '_'

/-- Node `path.parse(name).name`: the base name without its extension. -/
def baseNameNoExt (s : String) : String :=
  String.mk (s.data.take (s.data.length - (extnameCL s.data).length))

/-- The generated on-disk filename for an accepted upload. -/
def storageFilename (originalname : String) (ts : Nat) (rand : String) : String :=
  String.mk (((baseNameNoExt originalname).data.map sanitizeChar).take 20) ++
    "-" ++ toString ts ++ "-" ++ rand ++ lowerStr (extname originalname)

/-- One pass of the multer middleware over a single incoming file:
`fileFilter` runs when the part header is seen; a file passing the filter
is then streamed subject to the 5 MB limit and stored under the generated
name. -/
def processUpload (f : IncomingFile) (ts : Nat) (rand : String) :
    Except UploadFail StoredFile :=
  if fileFilter f.mimetype f.originalname then
    if f.size ≤ fileSizeLimit then
      Except.ok { filename := storageFilename f.originalname ts rand }
    else Except.error UploadFail.limitFileSize
  else Except.error (UploadFail.custom invalidTypeMsg)

/-- `handleMulterError`: every upload failure becomes a structured 400
response with a machine-readable error code. -/
def handleMulterError : UploadFail → Response
  | UploadFail.limitFileSize =>
    { status := 400, success := false,
      message := "File size too large. Maximum size allowed is 5MB.",
      errorCode := some "FILE_TOO_LARGE" }
  | UploadFail.limitFileCount =>
    { status := 400, success := false,
      message := "Too many files. Only one file is allowed.",
      errorCode := some "TOO_MANY_FILES" }
  | UploadFail.limitUnexpectedFile =>
    { status := 400, success := false,
      message := "Unexpected field name. Use profilePicture as field name.",
      errorCode := some "UNEXPECTED_FIELD" }
  | UploadFail.custom msg =>
    { status := 400, success := false,
      message := msg,
      errorCode := some "UPLOAD_ERROR" }

/-- `generateImageUrl`: scheme, host and the fixed path prefix in front of
the stored filename (the null-guard of the source for an empty filename is
unreachable here, since generated filenames are never empty). -/
def generateImageUrl (filename : String) (proto host : String) : String :=
  proto ++ "://" ++ host ++ "/uploads/profile-pictures/" ++ filename

/-! ## Controller operations (`authController.js`)

Request body fields are `Option String`: `none` is an absent field, and
JavaScript truthiness makes the empty string behave like an absent one. -/

/-- JavaScript truthiness of an optional string field. -/
def truthy (o : Option String) : Bool := !(o.getD "" == "")

/-- The body of a registration request. -/
structure RegisterBody where
  username : Option String := none
  email : Option String := none
  password : Option String := none
  role : Option String := none
deriving DecidableEq, Repr

/-- The body of a profile-update request. -/
structure UpdateBody where
  username : Option String := none
  email : Option String := none
  role : Option String := none
deriving DecidableEq, Repr

/-- `createAuth` (Register): input validation, the combined duplicate
pre-check via one `findOne` with an or-query, picture URL generation, and
the save (setters, validation, the store's unique indexes, pre-save
hashing).  Returns the response and the new store contents. -/
def createAuth (db : List User) (body : RegisterBody) (file : Option StoredFile)
    (proto host : String) (now newId : Nat) : Response × List User :=
  let username := body.username.getD ""
  let email := body.email.getD ""
  let password := body.password.getD ""
  if !(truthy body.username) || !(truthy body.email) || !(truthy body.password) then
    ({ status := 400, success := false,
       message := "Username, email, and password are required." }, db)
  else if decide (strLen password < 9) then
    ({ status := 400, success := false,
       message := "Password must be at least 9 characters long." }, db)
  else if !(emailRegexOk email) then
    ({ status := 400, success := false,
       message := "Please provide a valid email address." }, db)
  else
    match db.find? (fun u => u.email == email || u.username == username) with
    | some existingUser =>
      ({ status := 400, success := false,
         message :=
           if existingUser.email == email then "User with this email already exists."
           else "Username is already taken." }, db)
    | none =>
      let profilePictureUrl :=
        match file with
        | some f => generateImageUrl f.filename proto host
        | none => defaultProfilePicture
      let newUser : User :=
        { id := newId,
          username := trimStr username,
          email := lowerStr (trimStr email),
          password := password,
          profilePicture := profilePictureUrl,
          role := if truthy body.role then body.role.getD "" else "student",
          createdAt := now }
      let errs := validateUser newUser
      if !errs.isEmpty then
        ({ status := 400, success := false, message := "Validation error.",
           errors := errs }, db)
      else if db.any (fun u => u.username == newUser.username) then
        ({ status := 400, success := false, message := "username already exists." }, db)
      else if db.any (fun u => u.email == newUser.email) then
        ({ status := 400, success := false, message := "email already exists." }, db)
      else
        let saved : User := { newUser with password := bcryptHash password }
        ({ status := 201, success := true, message := "User created successfully.",
           user := some (toJSON saved) }, db ++ [saved])

/-- `loginAuth` (Login): input validation, lookup by lower-cased email,
bcrypt verification, token issuance.  Read-only: the store is untouched,
which the pure return type reflects. -/
def loginAuth (db : List User) (email? password? : Option String)
    (secret : String) (now : Nat) : Response :=
  if !(truthy email?) || !(truthy password?) then
    { status := 400, success := false,
      message := "Email and password are required." }
  else
    let email := email?.getD ""
    let password := password?.getD ""
    match db.find? (fun u => u.email == lowerStr email) with
    | none =>
      { status := 401, success := false, message := "Invalid email or password." }
    | some user =>
      if !(comparePassword password user.password) then
        { status := 401, success := false, message := "Invalid email or password." }
      else
        { status := 200, success := true, message := "Login successful.",
          user := some (toJSON user),
          token := some (jwtSign
            { userId := user.id, email := user.email,
              username := user.username, role := user.role }
            secret now (24 * 60 * 60)) }

/-- The field updates `updateUserProfile` applies before saving: a new
picture URL when a file is present, and each supplied (truthy) body field
assigned over the loaded record, with the schema setters applied. -/
def applyUpdates (user : User) (body : UpdateBody) (file : Option StoredFile)
    (proto host : String) : User :=
  { id := user.id,
    username := if truthy body.username then trimStr (body.username.getD "") else user.username,
    email := if truthy body.email then lowerStr (trimStr (body.email.getD "")) else user.email,
    password := user.password,
    profilePicture :=
      match file with
      | some f => generateImageUrl f.filename proto host
      | none => user.profilePicture,
    role := if truthy body.role then body.role.getD "" else user.role,
    createdAt := user.createdAt }

/-- `updateUserProfile` (UpdateProfile): load or 404; guarded duplicate
pre-checks for a changed email or username; picture and field updates; the
save (validation, then the store's unique indexes — a duplicate-key error
is not handled by this controller and surfaces as a 500). -/
def updateUserProfile (db : List User) (userId : Nat) (body : UpdateBody)
    (file : Option StoredFile) (proto host : String) : Response × List User :=
  match db.find? (fun u => u.id == userId) with
  | none => ({ status := 404, success := false, message := "User not found." }, db)
  | some user =>
    let email := body.email.getD ""
    let username := body.username.getD ""
    if truthy body.email && email != user.email &&
        db.any (fun u => u.email == email) then
      ({ status := 400, success := false, message := "Email is already taken." }, db)
    else if truthy body.username && username != user.username &&
        db.any (fun u => u.username == username) then
      ({ status := 400, success := false, message := "Username is already taken." }, db)
    else
      let u4 : User := applyUpdates user body file proto host
      let errs := validateUser u4
      if !errs.isEmpty then
        ({ status := 400, success := false, message := "Validation error.",
           errors := errs }, db)
      else if db.any (fun v => v.id != userId && (v.username == u4.username || v.email == u4.email)) then
        ({ status := 500, success := false, message := "Internal server error." }, db)
      else
        ({ status := 200, success := true, message := "Profile updated successfully.",
           user := some (toJSON u4) },
         db.map (fun v => if v.id == userId then u4 else v))

/-- `updateProfilePicture` (UpdatePictureOnly): requires a file; load or
404; picture URL update and save.  This controller has no ValidationError
branch, so a failing save surfaces as a 500. -/
def updateProfilePicture (db : List User) (userId : Nat)
    (file : Option StoredFile) (proto host : String) : Response × List User :=
  match file with
  | none => ({ status := 400, success := false, message := "No file uploaded." }, db)
  | some f =>
    match db.find? (fun u => u.id == userId) with
    | none => ({ status := 404, success := false, message := "User not found." }, db)
    | some user =>
      let u1 := { user with profilePicture := generateImageUrl f.filename proto host }
      if !(validateUser u1).isEmpty then
        ({ status := 500, success := false, message := "Internal server error." }, db)
      else
        ({ status := 200, success := true,
           message := "Profile picture updated successfully.",
           user := some (toJSON u1) },
         db.map (fun v => if v.id == userId then u1 else v))

/-- `getSingleUser` (GetById): load or 404, sanitized record back. -/
def getSingleUser (db : List User) (userId : Nat) : Response :=
  match db.find? (fun u => u.id == userId) with
  | none => { status := 404, success := false, message := "User not found." }
  | some user =>
    { status := 200, success := true, message := "User retrieved successfully.",
      user := some (toJSON user) }

/-- The mongo filter `getAllUsers` builds: exact role match when a role is
given, and when a search is given, the raw search string applied as a
case-insensitive regex pattern against username or email. -/
def listQueryMatches (role? search? : Option String) (u : User) : Bool :=
  (if truthy role? then u.role == role?.getD "" else true) &&
    (if truthy search? then
      mongoRegexFindI (search?.getD "") u.username ||
        mongoRegexFindI (search?.getD "") u.email
    else true)

/-- The `sort createdAt -1` of the list query: newest first. -/
def sortNewestFirst (l : List User) : List User :=
  List.insertionSort (fun a b => b.createdAt ≤ a.createdAt) l

instance : IsTotal User (fun a b => b.createdAt ≤ a.createdAt) :=
  ⟨fun a b => Nat.le_total b.createdAt a.createdAt⟩

instance : IsTrans User (fun a b => b.createdAt ≤ a.createdAt) :=
  ⟨fun _ _ _ hab hbc => Nat.le_trans hbc hab⟩

/-- The page of records `getAllUsers` returns: filter, newest-first sort,
skip `(page-1)*limit`, take `limit`. -/
def getAllUsersRecords (db : List User) (page limit : Nat)
    (role? search? : Option String) : List User :=
  ((sortNewestFirst (db.filter (listQueryMatches role? search?))).drop
    ((page - 1) * limit)).take limit

/-- `getAllUsers` (List): the page with the password excluded at the query
level, plus the pagination metadata. -/
def getAllUsers (db : List User) (page limit : Nat)
    (role? search? : Option String) : Response :=
  let filtered := db.filter (listQueryMatches role? search?)
  let totalUsers := filtered.length
  let totalPages := (totalUsers + limit - 1) / limit
  { status := 200, success := true, message := "Users retrieved successfully.",
    users := (getAllUsersRecords db page limit role? search?).map selectNoPassword,
    pagina := some
      { currentPage := page, totalPages := totalPages, totalUsers := totalUsers,
        hasNextPage := decide (page < totalPages),
        hasPrevPage := decide (1 < page) } }

/-- `deleteUser` (Delete): `findByIdAndDelete` removes the record with the
given id when present, else reports not-found. -/
def deleteUser (db : List User) (userId : Nat) : Response × List User :=
  match db.find? (fun u => u.id == userId) with
  | none => ({ status := 404, success := false, message := "User not found." }, db)
  | some _ =>
    ({ status := 200, success := true, message := "User deleted successfully." },
     db.eraseP (fun u => u.id == userId))

/-- The registration route: the multer middleware processes the optional
upload, a failure is answered by `handleMulterError`, and an accepted (or
absent) file reaches `createAuth`. -/
def registerRequest (db : List User) (body : RegisterBody)
    (upload : Option IncomingFile) (proto host : String)
    (now newId ts : Nat) (rand : String) : Response × List User :=
  match upload with
  | none => createAuth db body none proto host now newId
  | some f =>
    match processUpload f ts rand with
    | Except.error e => (handleMulterError e, db)
    | Except.ok stored => createAuth db body (some stored) proto host now newId

/-! ## Serialization-sanitation predicates and concrete fixtures -/

/-- Whether a serialized record carries a field of the given name. -/
def jsonHasKey (j : List (String × String)) (k : String) : Bool :=
  j.any (fun kv => kv.1 == k)

/-- Whether a response is free of the password field: neither its `user`
payload nor any element of its `users` payload carries a `password` key. -/
def respNoPassword (r : Response) : Bool :=
  (match r.user with
   | none => true
   | some j => !(jsonHasKey j "password")) &&
  r.users.all (fun j => !(jsonHasKey j "password"))

/-- A stored record used by concrete test inputs. -/
def sampleBob : User :=
  { id := 1, username := "bob", email := "bob@x.com",
    password := bcryptHash "passwordB1", profilePicture := defaultProfilePicture,
    role := "student", createdAt := 5 }

/-- A second stored record used by concrete test inputs. -/
def sampleAlice : User :=
  { id := 2, username := "alice", email := "alice@x.com",
    password := bcryptHash "passwordA1", profilePicture := defaultProfilePicture,
    role := "student", createdAt := 6 }

/-- A fully valid registration body. -/
def sampleRegBody : RegisterBody :=
  { username := some "carol", email := some "carol@example.com",
    password := some "password123" }

/-- A registration body whose email collides with `sampleAlice` while its
username collides with `sampleBob`. -/
def crossCollisionBody : RegisterBody :=
  { username := some "bob", email := some "alice@x.com",
    password := some "password123" }

/-- An incoming bmp upload: on both multer allow-lists, small. -/
def sampleBmpUpload : IncomingFile :=
  { originalname := "pic.bmp", mimetype := "image/bmp", size := 1000 }

/-- An incoming png upload: on both multer allow-lists, small. -/
def samplePngUpload : IncomingFile :=
  { originalname := "pic.png", mimetype := "image/png", size := 1000 }

/-- A pdf upload with a spoofed image extension. -/
def samplePdfUpload : IncomingFile :=
  { originalname := "doc.png", mimetype := "application/pdf", size := 10 }

/-- A stored record whose username is matched by the regex pattern a.c
although the pattern is not a substring of the username or the email. -/
def searchUser : User :=
  { id := 7, username := "abc", email := "abc@x.com",
    password := bcryptHash "password77", profilePicture := defaultProfilePicture,
    role := "student", createdAt := 3 }

/-! ## Helper lemmas -/

theorem toJSON_no_password (u : User) : jsonHasKey (toJSON u) "password" = false := rfl

theorem selectNoPassword_no_password (u : User) :
    jsonHasKey (selectNoPassword u) "password" = false := rfl

theorem all_map_selectNoPassword (l : List User) :
    (l.map selectNoPassword).all (fun j => !(jsonHasKey j "password")) = true := by
  rw [List.all_eq_true]
  intro j hj
  rcases List.mem_map.mp hj with ⟨u, _, rfl⟩
  simp [selectNoPassword_no_password]

/-! ## Claim theorems -/

/-- C1: for every user record returned by any operation (Register, Login,
UpdateProfile, UpdatePictureOnly, GetById, List), the returned record does
not contain the password field. -/
theorem c1_password_never_returned
    (db : List User) (body : RegisterBody) (ubody : UpdateBody)
    (file : Option StoredFile) (proto host secret : String)
    (e? p? : Option String) (now newId uid page limit : Nat)
    (role? search? : Option String) :
    respNoPassword (createAuth db body file proto host now newId).1 = true ∧
    respNoPassword (loginAuth db e? p? secret now) = true ∧
    respNoPassword (updateUserProfile db uid ubody file proto host).1 = true ∧
    respNoPassword (updateProfilePicture db uid file proto host).1 = true ∧
    respNoPassword (getSingleUser db uid) = true ∧
    respNoPassword (getAllUsers db page limit role? search?) = true := by
  refine ⟨?_, ?_, ?_, ?_, ?_, ?_⟩
  · simp only [createAuth]
    repeat' split
    all_goals rfl
  · simp only [loginAuth]
    repeat' split
    all_goals rfl
  · simp only [updateUserProfile]
    repeat' split
    all_goals rfl
  · simp only [updateProfilePicture]
    repeat' split
    all_goals rfl
  · simp only [getSingleUser]
    repeat' split
    all_goals rfl
  · simp [respNoPassword, getAllUsers, all_map_selectNoPassword]

/-- C10: a login request with a missing (absent or empty) email or
password is answered 400 with the exact required-fields message, before
any store lookup (the response does not depend on the store at all); the
operation is read-only, so the store is unchanged. -/
theorem c10_login_missing_fields
    (db : List User) (e? p? : Option String) (secret : String) (now : Nat)
    (h : truthy e? = false ∨ truthy p? = false) :
    loginAuth db e? p? secret now =
      { status := 400, success := false,
        message := "Email and password are required." } ∧
    ∀ db2 : List User, loginAuth db2 e? p? secret now = loginAuth db e? p? secret now := by
  have hc : (!(truthy e?) || !(truthy p?)) = true := by
    rcases h with h | h <;> simp [h]
  constructor
  · simp [loginAuth, hc]
  · intro db2
    simp [loginAuth, hc]

/-- Witness for C10 at a concrete input: absent email, present password. -/
theorem c10_witness :
    loginAuth [] none (some "secretpw1") "jwtsecret" 0 =
      { status := 400, success := false,
        message := "Email and password are required." } :=
  (c10_login_missing_fields [] none (some "secretpw1") "jwtsecret" 0 (Or.inl rfl)).1

/-- C2: a login failing on an unknown email and a login failing on a wrong
password produce the identical response: the same 401 status and the same
uniform message, revealing nothing about which field was wrong. -/
theorem c2_login_uniform_failure
    (db1 db2 : List User) (e1 p1 e2 p2 : Option String) (secret : String)
    (now : Nat) (u : User)
    (h1e : truthy e1 = true) (h1p : truthy p1 = true)
    (h1 : db1.find? (fun v => v.email == lowerStr (e1.getD "")) = none)
    (h2e : truthy e2 = true) (h2p : truthy p2 = true)
    (h2 : db2.find? (fun v => v.email == lowerStr (e2.getD "")) = some u)
    (h2w : comparePassword (p2.getD "") u.password = false) :
    loginAuth db1 e1 p1 secret now = loginAuth db2 e2 p2 secret now ∧
    (loginAuth db1 e1 p1 secret now).status = 401 ∧
    (loginAuth db1 e1 p1 secret now).message = "Invalid email or password." := by
  have r1 : loginAuth db1 e1 p1 secret now =
      { status := 401, success := false, message := "Invalid email or password." } := by
    simp [loginAuth, h1e, h1p, h1]
  have r2 : loginAuth db2 e2 p2 secret now =
      { status := 401, success := false, message := "Invalid email or password." } := by
    simp [loginAuth, h2e, h2p, h2, h2w]
  exact ⟨r1.trans r2.symm, by rw [r1], by rw [r1]⟩

/-- Witness for C2 at concrete inputs: an unknown email against an empty
store and a wrong password against a stored record give equal responses. -/
theorem c2_witness :
    loginAuth [] (some "ghost@x.com") (some "whatever12") "s" 3 =
      loginAuth [sampleAlice] (some "alice@x.com") (some "wrongpass1") "s" 3 :=
  (c2_login_uniform_failure [] [sampleAlice] (some "ghost@x.com") (some "whatever12")
    (some "alice@x.com") (some "wrongpass1") "s" 3 sampleAlice
    rfl rfl rfl rfl rfl (by decide) (by decide)).1

/-- C5: a successful login issues a token signed with the server-held
secret, carrying exactly the identity claims of the stored record that the
login matched, with expiry fixed at 24 hours after issuance. -/
theorem c5_login_token
    (db : List User) (e? p? : Option String) (secret : String) (now : Nat)
    (u : User)
    (he : truthy e? = true) (hp : truthy p? = true)
    (hf : db.find? (fun v => v.email == lowerStr (e?.getD "")) = some u)
    (hpw : comparePassword (p?.getD "") u.password = true) :
    u ∈ db ∧
    loginAuth db e? p? secret now =
      { status := 200, success := true, message := "Login successful.",
        user := some (toJSON u),
        token := some
          { claims := { userId := u.id, email := u.email,
                        username := u.username, role := u.role },
            iat := now, exp := now + 24 * 60 * 60, signedWith := secret } } := by
  refine ⟨List.mem_of_find?_eq_some hf, ?_⟩
  simp [loginAuth, he, hp, hf, hpw, jwtSign]

/-- Witness for C5 at a concrete input: a successful login of
`sampleAlice` (mixed-case email in the request) issues the expected
token. -/
theorem c5_witness :
    loginAuth [sampleAlice] (some "Alice@X.com") (some "passwordA1") "jwtsecret" 1000 =
      { status := 200, success := true, message := "Login successful.",
        user := some (toJSON sampleAlice),
        token := some
          { claims := { userId := 2, email := "alice@x.com",
                        username := "alice", role := "student" },
            iat := 1000, exp := 1000 + 24 * 60 * 60, signedWith := "jwtsecret" } } := by
  have h := c5_login_token [sampleAlice] (some "Alice@X.com") (some "passwordA1")
    "jwtsecret" 1000 sampleAlice rfl rfl (by decide) (by decide)
  exact h.2.trans (by decide)

/-- C3 (evaluation of the code at the failing input): a small bmp file is
on both multer allow-lists and is accepted and stored by the upload
handler, yet the otherwise valid registration carrying it is rejected with
a 400 validation error and no record is created, because the schema's
image-URL pattern omits bmp and tiff — contradicting the upload handler's
own `isValidImageUrl`, which accepts the very URL the schema rejects.  The
same registration with a png file succeeds and produces the expected
absolute URL. -/
theorem c3_bmp_registration_eval :
    fileFilter "image/bmp" "pic.bmp" = true ∧
    sampleBmpUpload.size ≤ fileSizeLimit ∧
    processUpload sampleBmpUpload 100 "abcd" =
      Except.ok { filename := "pic-100-abcd.bmp" } ∧
    (registerRequest [] sampleRegBody (some sampleBmpUpload)
      "http" "localhost:3000" 10 1 100 "abcd").1.status = 400 ∧
    (registerRequest [] sampleRegBody (some sampleBmpUpload)
      "http" "localhost:3000" 10 1 100 "abcd").1.message = "Validation error." ∧
    (registerRequest [] sampleRegBody (some sampleBmpUpload)
      "http" "localhost:3000" 10 1 100 "abcd").2 = [] ∧
    isValidImageUrl "http://localhost:3000/uploads/profile-pictures/pic-100-abcd.bmp" = true ∧
    schemaImageUrlOk "http://localhost:3000/uploads/profile-pictures/pic-100-abcd.bmp" = false ∧
    (registerRequest [] sampleRegBody (some samplePngUpload)
      "http" "localhost:3000" 10 1 100 "abcd").1.status = 201 ∧
    (registerRequest [] sampleRegBody (some samplePngUpload)
      "http" "localhost:3000" 10 1 100 "abcd").2.map (fun u => u.profilePicture) =
      ["http://localhost:3000/uploads/profile-pictures/pic-100-abcd.png"] :=
  ⟨rfl, by decide, rfl, rfl, rfl, rfl, rfl, rfl, rfl, rfl⟩

/-- C4 counterexample: in a store where `sampleBob` (username bob) precedes
`sampleAlice` (email alice@x.com), a registration whose email equals
sampleAlice's email and whose username equals sampleBob's username is
rejected with the message naming the username — not the email, although
the email does collide with an existing record. -/
theorem c4_counterexample :
    crossCollisionBody.email = some "alice@x.com" ∧
    sampleAlice ∈ [sampleBob, sampleAlice] ∧
    sampleAlice.email = "alice@x.com" ∧
    (createAuth [sampleBob, sampleAlice] crossCollisionBody none "http" "h" 10 3).1.message
      = "Username is already taken." ∧
    (createAuth [sampleBob, sampleAlice] crossCollisionBody none "http" "h" 10 3).1.message
      ≠ "User with this email already exists." := by
  decide

/-- C4 amended: for a registration passing input validation, a colliding
email is reported as an email conflict provided no existing record also
collides on the username, and a colliding username with non-colliding
email is reported as a username conflict.  (When both fields collide with
different records, the field reported is that of the first matching record
in store order, as the counterexample shows.) -/
theorem c4_amended_conflict_reporting
    (db : List User) (body : RegisterBody) (file : Option StoredFile)
    (proto host : String) (now newId : Nat)
    (hu : truthy body.username = true) (he : truthy body.email = true)
    (hp : truthy body.password = true)
    (hlen : 9 ≤ strLen (body.password.getD ""))
    (hfmt : emailRegexOk (body.email.getD "") = true) :
    ((∃ v ∈ db, v.email = body.email.getD "") →
      (∀ v ∈ db, v.username ≠ body.username.getD "") →
        (createAuth db body file proto host now newId).1.status = 400 ∧
        (createAuth db body file proto host now newId).1.message =
          "User with this email already exists.") ∧
    ((∃ v ∈ db, v.username = body.username.getD "") →
      (∀ v ∈ db, v.email ≠ body.email.getD "") →
        (createAuth db body file proto host now newId).1.status = 400 ∧
        (createAuth db body file proto host now newId).1.message =
          "Username is already taken.") := by
  have hc1 : (!(truthy body.username) || !(truthy body.email) || !(truthy body.password))
      = false := by
    simp [hu, he, hp]
  have hc2 : decide (strLen (body.password.getD "") < 9) = false := by
    simp
    omega
  have hc3 : (!(emailRegexOk (body.email.getD ""))) = false := by
    simp [hfmt]
  constructor
  · rintro ⟨v, hv, hve⟩ hno
    cases hfind : db.find? (fun w =>
        w.email == body.email.getD "" || w.username == body.username.getD "") with
    | none =>
      have hnone := List.find?_eq_none.mp hfind v hv
      simp [hve] at hnone
    | some ex =>
      have hexp : (ex.email == body.email.getD "") = true ∨
          (ex.username == body.username.getD "") = true := by
        simpa using List.find?_some hfind
      have hexm := List.mem_of_find?_eq_some hfind
      have hexe : (ex.email == body.email.getD "") = true := by
        rcases hexp with h | h
        · exact h
        · exact absurd (by simpa using h) (hno ex hexm)
      constructor <;> simp [createAuth, hc1, hc2, hc3, hfind, hexe]
  · rintro ⟨v, hv, hvu⟩ hno
    cases hfind : db.find? (fun w =>
        w.email == body.email.getD "" || w.username == body.username.getD "") with
    | none =>
      have hnone := List.find?_eq_none.mp hfind v hv
      simp [hvu] at hnone
    | some ex =>
      have hexm := List.mem_of_find?_eq_some hfind
      have hexe : (ex.email == body.email.getD "") = false := by
        simp
        exact hno ex hexm
      constructor <;> simp [createAuth, hc1, hc2, hc3, hfind, hexe]

/-- Witness for the amended C4: a registration colliding only on email is
rejected naming the email. -/
theorem c4_amended_witness :
    (createAuth [sampleAlice]
      { username := some "zed", email := some "alice@x.com",
        password := some "password123" }
      none "http" "h" 10 3).1.message = "User with this email already exists." := by
  have h := c4_amended_conflict_reporting [sampleAlice]
    { username := some "zed", email := some "alice@x.com",
      password := some "password123" }
    none "http" "h" 10 3 rfl rfl rfl (by decide) (by decide)
  refine (h.1 ⟨sampleAlice, by simp, by decide⟩ ?_).2
  intro v hv
  rw [List.mem_singleton] at hv
  subst hv
  decide

/-- C8: the upload handler accepts a file exactly when its MIME type is on
the allow-list, its lower-cased extension is on the allow-list, and its
size is at most 5 MB; a file with MIME type application/pdf is always
rejected (whatever its extension), and every rejection is turned into a
structured 400 client error by `handleMulterError`. -/
theorem c8_upload_filter (f : IncomingFile) (ts : Nat) (rand : String) :
    ((∃ sf, processUpload f ts rand = Except.ok sf) ↔
      (allowedMimeTypes.contains f.mimetype = true ∧
       allowedExtensions.contains (lowerStr (extname f.originalname)) = true ∧
       f.size ≤ fileSizeLimit)) ∧
    (f.mimetype = "application/pdf" →
      processUpload f ts rand = Except.error (UploadFail.custom invalidTypeMsg) ∧
      handleMulterError (UploadFail.custom invalidTypeMsg) =
        { status := 400, success := false, message := invalidTypeMsg,
          errorCode := some "UPLOAD_ERROR" }) ∧
    (∀ e, processUpload f ts rand = Except.error e →
      (handleMulterError e).status = 400 ∧ (handleMulterError e).success = false ∧
      (handleMulterError e).errorCode.isSome = true) := by
  refine ⟨?_, ?_, ?_⟩
  · constructor
    · rintro ⟨sf, hsf⟩
      simp only [processUpload] at hsf
      split at hsf
      case isTrue hff =>
        split at hsf
        case isTrue hsz =>
          simp only [fileFilter, Bool.and_eq_true] at hff
          exact ⟨hff.1, hff.2, hsz⟩
        case isFalse hsz => cases hsf
      case isFalse hff => cases hsf
    · rintro ⟨hm, he, hs⟩
      have hff : fileFilter f.mimetype f.originalname = true := by
        unfold fileFilter
        rw [hm, he]
        rfl
      refine ⟨{ filename := storageFilename f.originalname ts rand }, ?_⟩
      simp [processUpload, hff, hs]
  · intro hpdf
    have hm : allowedMimeTypes.contains f.mimetype = false := by
      rw [hpdf]
      decide
    have hff : fileFilter f.mimetype f.originalname = false := by
      unfold fileFilter
      rw [hm]
      simp
    exact ⟨by simp [processUpload, hff], rfl⟩
  · intro e hee
    cases e <;> simp [handleMulterError]

/-- Witness for C8 at a concrete input: a pdf with a spoofed png extension
is rejected and answered with a structured 400. -/
theorem c8_witness :
    processUpload samplePdfUpload 0 "r" = Except.error (UploadFail.custom invalidTypeMsg) ∧
    handleMulterError (UploadFail.custom invalidTypeMsg) =
      { status := 400, success := false, message := invalidTypeMsg,
        errorCode := some "UPLOAD_ERROR" } :=
  (c8_upload_filter samplePdfUpload 0 "r").2.1 rfl

theorem mem_eraseP_id_ne (uid : Nat) :
    ∀ l : List User, (l.map (fun u => u.id)).Nodup →
      ∀ u ∈ l.eraseP (fun v => v.id == uid), u.id ≠ uid := by
  intro l
  induction l with
  | nil =>
    intro _ u hu
    simp at hu
  | cons x t ih =>
    intro hnd u hu
    rw [List.map_cons, List.nodup_cons] at hnd
    rw [List.eraseP_cons] at hu
    by_cases hx : (x.id == uid) = true
    · rw [hx] at hu
      simp only [cond_true] at hu
      intro huid
      refine hnd.1 ?_
      have hxid : x.id = uid := by simpa using hx
      rw [hxid, ← huid]
      exact List.mem_map_of_mem (fun u => u.id) hu
    · rw [Bool.not_eq_true] at hx
      rw [hx] at hu
      simp only [cond_false] at hu
      rcases List.mem_cons.mp hu with h | h
      · subst h
        simpa using hx
      · exact ih hnd.2 u h

/-- C9: deleting an existing id removes the record and reports success;
deleting a missing id reports not-found and leaves the store unchanged;
after any delete the id is gone, so a second delete of the same id always
reports not-found without changing the store — deletion is idempotent in
effect.  (Record ids are pairwise distinct, the store invariant mongo's
primary key provides.) -/
theorem c9_delete_idempotent
    (db : List User) (uid : Nat) (hnd : (db.map (fun u => u.id)).Nodup) :
    ((∃ u ∈ db, u.id = uid) →
      (deleteUser db uid).1.status = 200 ∧
      (deleteUser db uid).1.success = true ∧
      (deleteUser db uid).1.message = "User deleted successfully.") ∧
    ((∀ u ∈ db, u.id ≠ uid) →
      (deleteUser db uid).1.status = 404 ∧ (deleteUser db uid).2 = db) ∧
    (∀ u ∈ (deleteUser db uid).2, u.id ≠ uid) ∧
    (deleteUser (deleteUser db uid).2 uid).1.status = 404 ∧
    (deleteUser (deleteUser db uid).2 uid).1.message = "User not found." ∧
    (deleteUser (deleteUser db uid).2 uid).2 = (deleteUser db uid).2 := by
  have hafter : ∀ u ∈ (deleteUser db uid).2, u.id ≠ uid := by
    cases hfind : db.find? (fun u => u.id == uid) with
    | none =>
      simp only [deleteUser, hfind]
      intro u hu
      have h2 := List.find?_eq_none.mp hfind u hu
      simpa using h2
    | some w =>
      simp only [deleteUser, hfind]
      intro u hu
      exact mem_eraseP_id_ne uid db hnd u hu
  have hnone2 : (deleteUser db uid).2.find? (fun u => u.id == uid) = none :=
    List.find?_eq_none.mpr (fun u hu => by simpa using hafter u hu)
  have e2 : deleteUser (deleteUser db uid).2 uid =
      ({ status := 404, success := false, message := "User not found." },
       (deleteUser db uid).2) := by
    generalize (deleteUser db uid).2 = l2 at hnone2 ⊢
    simp [deleteUser, hnone2]
  refine ⟨?_, ?_, hafter, ?_, ?_, ?_⟩
  · rintro ⟨u, hu, hui⟩
    have hsome : (db.find? (fun v => v.id == uid)).isSome :=
      List.find?_isSome.mpr ⟨u, hu, by simp [hui]⟩
    rcases Option.isSome_iff_exists.mp hsome with ⟨w, hw⟩
    simp [deleteUser, hw]
  · intro hall
    have hfind : db.find? (fun v => v.id == uid) = none :=
      List.find?_eq_none.mpr (fun u hu => by simpa using hall u hu)
    simp [deleteUser, hfind]
  · rw [e2]
  · rw [e2]
  · rw [e2]

/-- Witness for C9 at a concrete input: deleting `sampleAlice` succeeds,
deleting her again reports not-found. -/
theorem c9_witness :
    (deleteUser [sampleAlice] 2).1.status = 200 ∧
    (deleteUser (deleteUser [sampleAlice] 2).2 2).1.status = 404 := by
  have h := c9_delete_idempotent [sampleAlice] 2 (by decide)
  exact ⟨(h.1 ⟨sampleAlice, by simp, rfl⟩).1, h.2.2.2.1⟩

/-- C7: updating an existing record re-checks uniqueness only against
other records: an email or username conflict is reported only when some
record other than the target already holds the supplied value, and
re-supplying the target's own identity values never reports a conflict. -/
theorem c7_update_uniqueness_scope
    (db : List User) (uid : Nat) (body : UpdateBody) (file : Option StoredFile)
    (proto host : String) (target : User)
    (hfind : db.find? (fun u => u.id == uid) = some target) :
    ((updateUserProfile db uid body file proto host).1.message =
        "Email is already taken." →
      ∃ v ∈ db, v ≠ target ∧ v.email = body.email.getD "") ∧
    ((updateUserProfile db uid body file proto host).1.message =
        "Username is already taken." →
      ∃ v ∈ db, v ≠ target ∧ v.username = body.username.getD "") ∧
    (body.email = some target.email → body.username = some target.username →
      (updateUserProfile db uid body file proto host).1.message ≠
        "Email is already taken." ∧
      (updateUserProfile db uid body file proto host).1.message ≠
        "Username is already taken.") := by
  refine ⟨?_, ?_, ?_⟩
  · intro hmsg
    simp only [updateUserProfile, hfind] at hmsg
    by_cases hc1 : (truthy body.email && (body.email.getD "" != target.email) &&
        db.any (fun u => u.email == body.email.getD "")) = true
    · simp only [Bool.and_eq_true] at hc1
      rcases List.any_eq_true.mp hc1.2 with ⟨v, hv, hveq⟩
      have hvem : v.email = body.email.getD "" := by simpa using hveq
      have hne : body.email.getD "" ≠ target.email := by simpa using hc1.1.2
      refine ⟨v, hv, ?_, hvem⟩
      intro hveqt
      subst hveqt
      exact hne (hvem.symm.trans rfl)
    · rw [Bool.not_eq_true] at hc1
      rw [hc1] at hmsg
      simp only [Bool.false_eq_true, if_false] at hmsg
      exfalso
      split at hmsg
      · simp at hmsg
      · split at hmsg
        · simp at hmsg
        · split at hmsg
          · simp at hmsg
          · simp at hmsg
  · intro hmsg
    simp only [updateUserProfile, hfind] at hmsg
    by_cases hc1 : (truthy body.email && (body.email.getD "" != target.email) &&
        db.any (fun u => u.email == body.email.getD "")) = true
    · rw [hc1] at hmsg
      simp at hmsg
    · rw [Bool.not_eq_true] at hc1
      rw [hc1] at hmsg
      simp only [Bool.false_eq_true, if_false] at hmsg
      by_cases hc2 : (truthy body.username && (body.username.getD "" != target.username) &&
          db.any (fun u => u.username == body.username.getD "")) = true
      · simp only [Bool.and_eq_true] at hc2
        rcases List.any_eq_true.mp hc2.2 with ⟨v, hv, hveq⟩
        have hvun : v.username = body.username.getD "" := by simpa using hveq
        have hne : body.username.getD "" ≠ target.username := by simpa using hc2.1.2
        refine ⟨v, hv, ?_, hvun⟩
        intro hveqt
        subst hveqt
        exact hne (hvun.symm.trans rfl)
      · rw [Bool.not_eq_true] at hc2
        rw [hc2] at hmsg
        simp only [Bool.false_eq_true, if_false] at hmsg
        exfalso
        split at hmsg
        · simp at hmsg
        · split at hmsg
          · simp at hmsg
          · simp at hmsg
  · intro h1 h2
    have hb1 : (body.email.getD "" != target.email) = false := by
      rw [h1]
      simp
    have hb2 : (body.username.getD "" != target.username) = false := by
      rw [h2]
      simp
    constructor <;>
    · intro hmsg
      simp only [updateUserProfile, hfind, hb1, hb2, Bool.and_false,
        Bool.false_and, Bool.false_eq_true, if_false] at hmsg
      split at hmsg
      · simp at hmsg
      · split at hmsg
        · simp at hmsg
        · simp at hmsg

/-- Witness for C7 at a concrete input: an update re-supplying
`sampleAlice`'s own username and email reports no conflict. -/
theorem c7_witness :
    (updateUserProfile [sampleBob, sampleAlice] 2
      { username := some "alice", email := some "alice@x.com" }
      none "http" "h").1.message ≠ "Email is already taken." ∧
    (updateUserProfile [sampleBob, sampleAlice] 2
      { username := some "alice", email := some "alice@x.com" }
      none "http" "h").1.message ≠ "Username is already taken." := by
  have h := c7_update_uniqueness_scope [sampleBob, sampleAlice] 2
    { username := some "alice", email := some "alice@x.com" }
    none "http" "h" sampleAlice (by decide)
  exact h.2.2 rfl rfl

theorem parseDotPattern_plain (l : List Char)
    (h : l.all (fun c => !(regexMeta.contains c)) = true) :
    parseDotPattern l = some (l.map PatTok.lit) := by
  induction l with
  | nil => rfl
  | cons c t ih =>
    rw [List.all_cons, Bool.and_eq_true] at h
    have hc : regexMeta.contains c = false := by simpa using h.1
    have hdot : (c == '.') = false := by
      by_contra hx
      rw [Bool.not_eq_false] at hx
      have hce : c = '.' := by simpa using hx
      subst hce
      exact absurd hc (by decide)
    have hcm : c ∉ regexMeta := by simpa using hc
    simp [parseDotPattern, hdot, hc, hcm, ih h.2]

theorem toksMatchHere_lits (p : List Char) :
    ∀ s : List Char, toksMatchHere (p.map PatTok.lit) s =
      startsWithCL (p.map lowerChar) (s.map lowerChar) := by
  induction p with
  | nil =>
    intro s
    cases s <;> rfl
  | cons a as ih =>
    intro s
    cases s with
    | nil => rfl
    | cons c cs => simp [toksMatchHere, startsWithCL, tokMatches, ih]

theorem toksSearch_lits (p : List Char) :
    ∀ s : List Char, toksSearch (p.map PatTok.lit) s =
      hasSubCL (p.map lowerChar) (s.map lowerChar) := by
  intro s
  induction s with
  | nil =>
    rw [toksSearch, toksMatchHere_lits]
    cases p <;> rfl
  | cons c cs ih =>
    rw [toksSearch, toksMatchHere_lits, List.map_cons, hasSubCL, ih]

/-- On a metacharacter-free pattern the code's case-insensitive regex
search coincides with case-insensitive substring containment. -/
theorem mongoRegexFindI_plain (p s : String)
    (h : p.data.all (fun c => !(regexMeta.contains c)) = true) :
    mongoRegexFindI p s = ciContains s p := by
  rw [mongoRegexFindI, parseDotPattern_plain p.data h]
  show toksSearch (p.data.map PatTok.lit) s.data = ciContains s p
  rw [toksSearch_lits]
  rfl

/-- C6 counterexample: the search string a.c is applied by the code as a
regex pattern, so the wildcard makes it match the record with username
abc, which the List call returns although a.c is not a case-insensitive
substring of the record's username or email — the claim's stated filter
("case-insensitive substring match of search") is violated by the
program's own output at this input. -/
theorem c6_counterexample :
    (getAllUsers [searchUser] 1 10 none (some "a.c")).users =
      [selectNoPassword searchUser] ∧
    ciContains searchUser.username "a.c" = false ∧
    ciContains searchUser.email "a.c" = false := by
  decide

/-- C6 amended: for every List call whose search string (when given) is
free of regex metacharacters, every record of the page matches the filter
(exact role, case-insensitive substring search on username or email); the
page is ordered newest-first, obtained by skipping `(page-1)*limit`
records and taking at most `limit`; and the pagination metadata satisfies
`totalPages = ceil(totalUsers/limit)` (characterized as the least bound),
`hasNextPage` iff `page < totalPages`, and `hasPrevPage` iff `page > 1`.
(For a search string holding metacharacters the code filters by regex
match instead, as the counterexample shows.) -/
theorem c6_amended_list_pagination
    (db : List User) (page limit : Nat) (role? search? : Option String)
    (hp : 1 ≤ page) (hl : 1 ≤ limit)
    (hplain : ∀ s, search? = some s →
      s.data.all (fun c => !(regexMeta.contains c)) = true) :
    (getAllUsers db page limit role? search?).users =
      (getAllUsersRecords db page limit role? search?).map selectNoPassword ∧
    (∀ u ∈ getAllUsersRecords db page limit role? search?,
      u ∈ db ∧
      (truthy role? = true → u.role = role?.getD "") ∧
      (truthy search? = true →
        (ciContains u.username (search?.getD "") ||
          ciContains u.email (search?.getD "")) = true)) ∧
    (getAllUsersRecords db page limit role? search?).Pairwise
      (fun a b => b.createdAt ≤ a.createdAt) ∧
    (getAllUsersRecords db page limit role? search?).length ≤ limit ∧
    (getAllUsersRecords db page limit role? search? =
      ((sortNewestFirst (db.filter (listQueryMatches role? search?))).drop
        ((page - 1) * limit)).take limit) ∧
    ∃ pg, (getAllUsers db page limit role? search?).pagina = some pg ∧
      pg.currentPage = page ∧
      pg.totalUsers = (db.filter (listQueryMatches role? search?)).length ∧
      pg.totalUsers ≤ pg.totalPages * limit ∧
      pg.totalPages * limit < pg.totalUsers + limit ∧
      (pg.hasNextPage = true ↔ page < pg.totalPages) ∧
      (pg.hasPrevPage = true ↔ 1 < page) := by
  refine ⟨rfl, ?_, ?_, ?_, rfl, ?_⟩
  · intro u hu
    simp only [getAllUsersRecords] at hu
    have h1 : u ∈ (sortNewestFirst (db.filter (listQueryMatches role? search?))).drop
        ((page - 1) * limit) := (List.take_sublist _ _).subset hu
    have h2 : u ∈ sortNewestFirst (db.filter (listQueryMatches role? search?)) :=
      (List.drop_sublist _ _).subset h1
    have h3 : u ∈ db.filter (listQueryMatches role? search?) := by
      exact (List.perm_insertionSort _ _).mem_iff.mp h2
    have h4 := List.mem_filter.mp h3
    refine ⟨h4.1, ?_, ?_⟩
    · intro hrole
      have hm := h4.2
      simp only [listQueryMatches, hrole, if_true, Bool.and_eq_true] at hm
      simpa using hm.1
    · intro hsearch
      have hm := h4.2
      simp only [listQueryMatches, hsearch, if_true, Bool.and_eq_true] at hm
      cases search? with
      | none => simp [truthy] at hsearch
      | some s =>
        have hpl := hplain s rfl
        have he1 := mongoRegexFindI_plain s u.username hpl
        have he2 := mongoRegexFindI_plain s u.email hpl
        have hm2 := hm.2
        simp only [Option.getD_some] at hm2 ⊢
        rw [← he1, ← he2]
        exact hm2
  · have hs : (sortNewestFirst (db.filter (listQueryMatches role? search?))).Pairwise
        (fun a b => b.createdAt ≤ a.createdAt) :=
      List.sorted_insertionSort _ _
    exact List.Pairwise.sublist ((List.take_sublist _ _).trans (List.drop_sublist _ _)) hs
  · simp only [getAllUsersRecords]
    exact List.length_take_le _ _
  · refine ⟨_, rfl, rfl, rfl, ?_, ?_, ?_, ?_⟩
    · have key : (db.filter (listQueryMatches role? search?)).length ≤
          ((db.filter (listQueryMatches role? search?)).length + limit - 1) / limit * limit := by
        set t := (db.filter (listQueryMatches role? search?)).length with ht
        have hdm := Nat.div_add_mod (t + limit - 1) limit
        have hml : (t + limit - 1) % limit < limit := Nat.mod_lt _ (by omega)
        have hcm : (t + limit - 1) / limit * limit = limit * ((t + limit - 1) / limit) :=
          Nat.mul_comm _ _
        rw [hcm]
        generalize limit * ((t + limit - 1) / limit) = P at hdm ⊢
        generalize (t + limit - 1) % limit = M at hdm hml
        omega
      exact key
    · have key : ((db.filter (listQueryMatches role? search?)).length + limit - 1) / limit * limit <
          (db.filter (listQueryMatches role? search?)).length + limit := by
        set t := (db.filter (listQueryMatches role? search?)).length with ht
        have hdm := Nat.div_add_mod (t + limit - 1) limit
        have hml : (t + limit - 1) % limit < limit := Nat.mod_lt _ (by omega)
        have hcm : (t + limit - 1) / limit * limit = limit * ((t + limit - 1) / limit) :=
          Nat.mul_comm _ _
        rw [hcm]
        generalize limit * ((t + limit - 1) / limit) = P at hdm ⊢
        generalize (t + limit - 1) % limit = M at hdm hml
        omega
      exact key
    · simp
    · simp

/-- Witness for the amended C6 at a concrete input: two records, page 1,
limit 1, with a metacharacter-free search string. -/
theorem c6_amended_witness :
    (getAllUsers [sampleBob, sampleAlice] 1 1 none (some "al")).users =
      (getAllUsersRecords [sampleBob, sampleAlice] 1 1 none (some "al")).map
        selectNoPassword ∧
    (getAllUsersRecords [sampleBob, sampleAlice] 1 1 none (some "al")).length ≤ 1 := by
  have h := c6_amended_list_pagination [sampleBob, sampleAlice] 1 1 none (some "al")
    (by decide) (by decide) (by intro s hs; cases hs; decide)
  exact ⟨h.1, h.2.2.2.1⟩

end Novanector
